import Mathlib

/-!
Shallow embedding of the WebSocket connection-registry and progress-broadcast
layer of the keyvex_infrastructure repository.

Sources embedded here:
* `src/lambda/websocket-handler/src/index.ts` — `handleConnect`,
  `handleDisconnect`, `emitStepProgress` (the handler-local broadcaster that
  prunes stale connections on delivery failure);
* `src/lambda/shared/utils.ts` — the shared `emitStepProgress` helper (queries
  GSI1 with a `CONNECTION#` sort-key prefix and does **not** prune on failure).

The DynamoDB single table is modelled as a list of connection records; a
`PutCommand` overwrites the record with the same (PK, SK) key, a
`DeleteCommand` removes the record with the given key, a query is a filter.
Fallible AWS calls (PutCommand, QueryCommand, DeleteCommand,
PostToConnectionCommand) are driven by an explicit `Behavior` oracle so that
every try/catch of the source is an explicit `match` on an `Except` value; an
`Except.error` models a thrown error / rejected promise reaching that point.
Timestamps are naturals: `now` is epoch milliseconds, the stored `ttl`
attribute is epoch seconds, exactly as in the source
(`Math.floor(Date.now() / 1000) + 2 * 60 * 60`).

Side observations (send attempts, successful deliveries, disconnects
triggered by failed deliveries, console log lines) are instrumented into the
result structures; the source functions return `void`, so the spec's
`DeliveryReport` is read off these observable effects.
-/

/-- Level of a console log line (`console.log` / `console.warn` / `console.error`). -/
inductive LogLevel where
  | info
  | warn
  | error
deriving DecidableEq, Repr

/-- One console log line, identified by its level and a fixed message tag. -/
structure LogEntry where
  level : LogLevel
  tag : String
deriving DecidableEq, Repr

/-- A connection record as written by `handleConnect`
(`src/lambda/websocket-handler/src/index.ts`, lines 50-60): the single-table
item with composite keys, mirrored GSI1 keys, and the TTL attribute. -/
structure ConnRecord where
  PK : String
  SK : String
  GSI1PK : String
  GSI1SK : String
  connectionId : String
  userId : String
  jobId : Option String
  connectedAt : Nat
  ttl : Nat
deriving DecidableEq, Repr

/-- The DynamoDB table, restricted to connection records. -/
abbrev Store := List ConnRecord

/-- Failure/behaviour oracle for the AWS calls: whether the `PutCommand`
throws, whether the GSI1 `QueryCommand` throws, whether the by-PK
`QueryCommand` / `DeleteCommand` for a given connection id throw, and whether
`PostToConnectionCommand` to a given connection id succeeds. -/
structure Behavior where
  putFails : Bool
  gsiQueryFails : Bool
  pkQueryFails : String → Bool
  deleteFails : String → Bool
  sendOk : String → Bool

/-- Partition key of a connection record: the template string
`CONNECTION#connectionId`. -/
def connKey (cid : String) : String := "CONNECTION#" ++ cid

/-- User key: the template string `USER#userId`, used as SK and GSI1PK. -/
def userKey (uid : String) : String := "USER#" ++ uid

/-- JavaScript string-falsiness of an optional string: `undefined`/`null`
(here `none`) and the empty string are falsy; used for checks such as
`if (!userId)` and `jobId: jobId || null`. -/
def strFalsy : Option String → Bool
  | none => true
  | some s => s == ""

/-- An API Gateway proxy result: `statusCode` and `body`. -/
structure HttpRes where
  statusCode : Nat
  body : String
deriving DecidableEq, Repr

/-- DynamoDB `PutCommand` semantics on the modelled table: the new item
replaces any item with the same (PK, SK) primary key. -/
def dynamoPut (item : ConnRecord) (st : Store) : Store :=
  item :: st.filter (fun r => !(r.PK == item.PK && r.SK == item.SK))

/-- Embedding of `handleConnect` (index.ts lines 39-69): reject when `userId`
is missing (JS-falsy) before any store interaction, otherwise build the
connection record (`connectedAt = now`, `ttl = now / 1000 + 2 * 60 * 60`) and
put it; a failing `PutCommand` propagates to the caller as an error. -/
def handleConnect (b : Behavior) (connectionId : String) (userId jobId : Option String)
    (now : Nat) (st : Store) : Except String (HttpRes × Store) :=
  match userId with
  | none => Except.ok (⟨400, "Missing userId"⟩, st)
  | some u =>
    if u == "" then Except.ok (⟨400, "Missing userId"⟩, st)
    else
      let item : ConnRecord :=
        { PK := connKey connectionId
          SK := userKey u
          GSI1PK := userKey u
          GSI1SK := connKey connectionId
          connectionId := connectionId
          userId := u
          jobId := if strFalsy jobId then none else jobId
          connectedAt := now
          ttl := now / 1000 + 2 * 60 * 60 }
      if b.putFails then Except.error "put failed"
      else Except.ok (⟨200, "Connected"⟩, dynamoPut item st)

/-- The try-block of `handleDisconnect` (index.ts lines 75-93): query the
table by `PK = CONNECTION#connectionId`, and if any item comes back, delete
the first one by its (PK, SK) key. Either store call may throw. -/
def disconnectAttempt (b : Behavior) (cid : String) (st : Store) : Except String Store :=
  if b.pkQueryFails cid then Except.error "query failed"
  else
    match st.filter (fun r => r.PK == connKey cid) with
    | [] => Except.ok st
    | item :: _ =>
      if b.deleteFails cid then Except.error "delete failed"
      else Except.ok (st.filter (fun r => !(r.PK == item.PK && r.SK == item.SK)))

/-- Embedding of `handleDisconnect` (index.ts lines 71-100): the try-block is
wrapped in a catch that only logs, so every outcome returns
`200 Disconnected`; on a store error the table is left as it was. -/
def handleDisconnect (b : Behavior) (cid : String) (st : Store) : HttpRes × Store :=
  match disconnectAttempt b cid st with
  | Except.ok st2 => (⟨200, "Disconnected"⟩, st2)
  | Except.error _ => (⟨200, "Disconnected"⟩, st)

/-- The GSI1 query of the handler-local `emitStepProgress` (index.ts lines
144-151): `KeyConditionExpression: GSI1PK = USER#userId`, no further filter
(in particular no TTL filter). -/
def gsiQuery (uid : String) (st : Store) : List ConnRecord :=
  st.filter (fun r => r.GSI1PK == userKey uid)

/-- The connection ids visible for a user: the GSI1 query of
`emitStepProgress` projected to `connectionId` — the spec's `findByUser`. -/
def findByUser (uid : String) (st : Store) : List String :=
  (gsiQuery uid st).map (fun r => r.connectionId)

/-- DynamoDB TTL semantics: an item is logically expired once the epoch
second in its `ttl` attribute is in the past. The store purges such items in
the background; until then they are still returned by queries. -/
def expiredAt (nowSec : Nat) (r : ConnRecord) : Bool :=
  r.ttl < nowSec

/-- Aggregate of the observable delivery outcome of one broadcast call:
how many sends were attempted, how many succeeded, and how many disconnects
were triggered by failed sends (the spec's `DeliveryReport`). -/
structure DeliveryReport where
  attempted : Nat
  delivered : Nat
  pruned : Nat
deriving DecidableEq, Repr

/-- Observable outcome of one `emitStepProgress` call: the table afterwards,
the delivery report, the connection ids a send was attempted to / delivered
to (in processing order), and the console log lines. -/
structure BroadcastResult where
  store : Store
  report : DeliveryReport
  attempts : List String
  deliveredIds : List String
  logs : List LogEntry
deriving DecidableEq, Repr

/-- State threaded through the per-connection send loop of the handler-local
`emitStepProgress`. -/
structure LoopState where
  store : Store
  attempts : List String
  deliveredIds : List String
  pruned : Nat
  logs : List LogEntry
deriving DecidableEq, Repr

/-- The per-connection send loop of the handler-local `emitStepProgress`
(index.ts lines 173-187): for each queried record, attempt
`PostToConnectionCommand`; on success log, on failure log an error and call
`handleDisconnect` for that connection id ("Remove stale connection"). Each
attempt has its own try/catch, so one outcome never affects the others. -/
def sendLoop (b : Behavior) : List ConnRecord → Store → LoopState
  | [], st => ⟨st, [], [], 0, []⟩
  | c :: rest, st =>
    if b.sendOk c.connectionId then
      let s := sendLoop b rest st
      ⟨s.store, c.connectionId :: s.attempts, c.connectionId :: s.deliveredIds, s.pruned,
        ⟨LogLevel.info, "Progress sent to connection"⟩ :: s.logs⟩
    else
      let st2 := (handleDisconnect b c.connectionId st).2
      let s := sendLoop b rest st2
      ⟨s.store, c.connectionId :: s.attempts, s.deliveredIds, s.pruned + 1,
        ⟨LogLevel.error, "Failed to send to connection"⟩ :: s.logs⟩

/-- The try-block of the handler-local `emitStepProgress` (index.ts lines
142-187): GSI1 query (which may throw), early return with an info log when no
connection is found, otherwise the send loop over all queried records. -/
def emitTry (b : Behavior) (uid : String) (st : Store) : Except String BroadcastResult :=
  if b.gsiQueryFails then Except.error "query failed"
  else if (gsiQuery uid st).isEmpty then
    Except.ok ⟨st, ⟨0, 0, 0⟩, [], [],
      [⟨LogLevel.info, "No active WebSocket connections found"⟩]⟩
  else
    Except.ok ⟨(sendLoop b (gsiQuery uid st) st).store,
      ⟨(gsiQuery uid st).length, (sendLoop b (gsiQuery uid st) st).deliveredIds.length,
        (sendLoop b (gsiQuery uid st) st).pruned⟩,
      (sendLoop b (gsiQuery uid st) st).attempts,
      (sendLoop b (gsiQuery uid st) st).deliveredIds,
      (sendLoop b (gsiQuery uid st) st).logs⟩

/-- Embedding of the handler-local `emitStepProgress` (index.ts lines
128-191): skip with a warning when `domainName` or `stage` is missing
(JS-falsy); otherwise run the try-block, whose error is caught and only
logged — the function itself always resolves. `jobId`, `stepName` and
`status` only flow into the serialized message. -/
def emitStepProgress (b : Behavior) (uid jobId stepName status : String)
    (domainName stage : Option String) (st : Store) : Except String BroadcastResult :=
  if strFalsy domainName || strFalsy stage then
    Except.ok ⟨st, ⟨0, 0, 0⟩, [], [],
      [⟨LogLevel.warn, "WebSocket domain or stage not provided"⟩]⟩
  else
    match emitTry b uid st with
    | Except.ok r => Except.ok r
    | Except.error _ =>
      Except.ok ⟨st, ⟨0, 0, 0⟩, [], [],
        [⟨LogLevel.error, "Error emitting step progress"⟩]⟩

/-- DynamoDB `begins_with(attr, pre)` condition, modelled on the character
lists of the two strings. -/
def beginsWith (attr pre : String) : Bool :=
  pre.data.isPrefixOf attr.data

/-- The GSI1 query of the shared `emitStepProgress`
(`src/lambda/shared/utils.ts`, via `DynamoDBHelper.queryGSI`): key condition
`GSI1PK = USER#userId AND begins_with(GSI1SK, CONNECTION#)`. -/
def queryGSIShared (uid : String) (st : Store) : List ConnRecord :=
  st.filter (fun r => r.GSI1PK == userKey uid && beginsWith r.GSI1SK "CONNECTION#")

/-- The per-connection send loop of the shared `emitStepProgress` (utils.ts
lines 767-780): attempt each send, log failures — and do nothing else: no
store mutation on failure (the source comments "Could add logic here to
remove stale connections"). Returns (attempts, deliveredIds, logs). -/
def sharedSendLoop (b : Behavior) : List ConnRecord → List String × List String × List LogEntry
  | [] => ([], [], [])
  | c :: rest =>
    let s := sharedSendLoop b rest
    if b.sendOk c.connectionId then
      (c.connectionId :: s.1, c.connectionId :: s.2.1,
        ⟨LogLevel.info, "Progress sent to connection"⟩ :: s.2.2)
    else
      (c.connectionId :: s.1, s.2.1,
        ⟨LogLevel.error, "Failed to send to connection"⟩ :: s.2.2)

/-- The try-block of the shared `emitStepProgress` (utils.ts lines 737-782):
GSI1 query with `CONNECTION#` prefix, early return when empty, then the
non-pruning send loop followed by a final info log; the table is never
mutated. -/
def sharedTry (b : Behavior) (uid : String) (st : Store) : Except String BroadcastResult :=
  if b.gsiQueryFails then Except.error "query failed"
  else if (queryGSIShared uid st).isEmpty then
    Except.ok ⟨st, ⟨0, 0, 0⟩, [], [],
      [⟨LogLevel.info, "No active WebSocket connections found"⟩]⟩
  else
    Except.ok ⟨st,
      ⟨(queryGSIShared uid st).length, (sharedSendLoop b (queryGSIShared uid st)).2.1.length, 0⟩,
      (sharedSendLoop b (queryGSIShared uid st)).1,
      (sharedSendLoop b (queryGSIShared uid st)).2.1,
      (sharedSendLoop b (queryGSIShared uid st)).2.2 ++
        [⟨LogLevel.info, "Step progress emitted"⟩]⟩

/-- Embedding of the shared `emitStepProgress` (utils.ts lines 721-785): skip
with a warning when the table name, WebSocket domain or stage environment
value is missing (JS-falsy); otherwise run the try-block with its catch-all
that only logs. -/
def emitStepProgressShared (b : Behavior) (uid jobId stepName status : String)
    (tableName wsDomain wsStage : Option String) (st : Store) :
    Except String BroadcastResult :=
  if strFalsy tableName || strFalsy wsDomain || strFalsy wsStage then
    Except.ok ⟨st, ⟨0, 0, 0⟩, [], [],
      [⟨LogLevel.warn, "WebSocket environment variables not configured"⟩]⟩
  else
    match sharedTry b uid st with
    | Except.ok r => Except.ok r
    | Except.error _ =>
      Except.ok ⟨st, ⟨0, 0, 0⟩, [], [],
        [⟨LogLevel.error, "Error emitting step progress"⟩]⟩

/-- A behaviour with no store failures in which every delivery succeeds. -/
def bAllOk : Behavior :=
  ⟨false, false, (fun _ => false), (fun _ => false), (fun _ => true)⟩

/-- A behaviour with no store failures in which every delivery fails. -/
def bAllDrop : Behavior :=
  ⟨false, false, (fun _ => false), (fun _ => false), (fun _ => false)⟩

/-- A fixed stored connection record for user `u1`, connection `c1`, already
past its `ttl` once the clock reaches epoch second 2000. -/
def rec1 : ConnRecord :=
  ⟨"CONNECTION#c1", "USER#u1", "USER#u1", "CONNECTION#c1", "c1", "u1", none, 5000, 1000⟩

/-- A second stored connection record for user `u1`, connection `c2`. -/
def rec2 : ConnRecord :=
  ⟨"CONNECTION#c2", "USER#u1", "USER#u1", "CONNECTION#c2", "c2", "u1", none, 5000, 1000⟩

/-- A behaviour with no store failures in which delivery succeeds only to
connection `c2`. -/
def bMixed : Behavior :=
  ⟨false, false, (fun _ => false), (fun _ => false), (fun c => c == "c2")⟩

example : handleConnect ⟨false, false, (fun _ => false), (fun _ => false), (fun _ => true)⟩
    "c1" (some "u1") none 5000 [] =
    Except.ok (⟨200, "Connected"⟩,
      [⟨"CONNECTION#c1", "USER#u1", "USER#u1", "CONNECTION#c1", "c1", "u1", none, 5000, 7205⟩]) := by
  rfl

example : findByUser "u1"
    [⟨"CONNECTION#c1", "USER#u1", "USER#u1", "CONNECTION#c1", "c1", "u1", none, 5000, 7205⟩] =
    ["c1"] := by decide

example : (emitStepProgress bAllDrop "u1" "j" "s" "running" (some "d") (some "g")
    [rec1, rec2]).map (fun r => (r.store, r.report)) =
    Except.ok ([], ⟨2, 0, 2⟩) := by rfl

example : (emitStepProgressShared bAllDrop "u1" "j" "s" "running" (some "t") (some "d") (some "g")
    [rec1, rec2]).map (fun r => (r.store, r.report)) =
    Except.ok ([rec1, rec2], ⟨2, 0, 0⟩) := by rfl

example : (emitStepProgress ⟨false, false, (fun _ => false), (fun _ => false), (fun c => c == "c2")⟩
    "u1" "j" "s" "running" (some "d") (some "g") [rec1, rec2]).map
      (fun r => (findByUser "u1" r.store, r.report, r.attempts, r.deliveredIds)) =
    Except.ok (["c2"], ⟨2, 1, 1⟩, ["c1", "c2"], ["c2"]) := by rfl

/-- A record is well formed when its single-table keys are the template
strings built from its `connectionId` and `userId`, exactly as
`handleConnect` writes them. -/
def WFRecord (r : ConnRecord) : Prop :=
  r.PK = connKey r.connectionId ∧ r.SK = userKey r.userId ∧
    r.GSI1PK = userKey r.userId ∧ r.GSI1SK = connKey r.connectionId

/-- Every record of the table is well formed. -/
def WFStore (st : Store) : Prop := ∀ r ∈ st, WFRecord r

/-- The spec's registry invariant: `connectionId` is unique across all live
connection records. -/
def UniqueConn (st : Store) : Prop := (st.map (fun r => r.connectionId)).Nodup

/-- DynamoDB table invariant: primary keys (PK, SK) are pairwise distinct. -/
def KeyNodup (st : Store) : Prop := (st.map (fun r => (r.PK, r.SK))).Nodup

/-- At most one record shares any given partition key (PK determines the
record). Holds for well-formed stores with unique connection ids. -/
def PKUnique (st : Store) : Prop := ∀ a ∈ st, ∀ c ∈ st, a.PK = c.PK → a = c

theorem connKey_inj {a c : String} (h : connKey a = connKey c) : a = c := by
  have hd : ("CONNECTION#" ++ a).data = ("CONNECTION#" ++ c).data := congrArg String.data h
  rw [String.data_append, String.data_append] at hd
  have h2 := List.append_cancel_left hd
  cases a; cases c; exact congrArg String.mk h2

theorem pkUnique_of_wf_unique {st : Store} (hwf : WFStore st) (hu : UniqueConn st) :
    PKUnique st := by
  intro a ha c hc hpk
  have hak := (hwf a ha).1
  have hck := (hwf c hc).1
  have : a.connectionId = c.connectionId := connKey_inj (by rw [← hak, ← hck, hpk])
  exact List.inj_on_of_nodup_map hu ha hc this

theorem pkUnique_filter {st : Store} (p : ConnRecord → Bool) (h : PKUnique st) :
    PKUnique (st.filter p) := by
  intro a ha c hc hpk
  exact h a (List.mem_filter.1 ha).1 c (List.mem_filter.1 hc).1 hpk

theorem keyNodup_eq {st : Store} (h : KeyNodup st) {a c : ConnRecord}
    (ha : a ∈ st) (hc : c ∈ st) (hpk : a.PK = c.PK) (hsk : a.SK = c.SK) : a = c := by
  have : (a.PK, a.SK) = (c.PK, c.SK) := by rw [hpk, hsk]
  exact List.inj_on_of_nodup_map h ha hc this

theorem handleDisconnect_status (b : Behavior) (cid : String) (st : Store) :
    (handleDisconnect b cid st).1 = ⟨200, "Disconnected"⟩ := by
  unfold handleDisconnect
  split <;> rfl

theorem handleDisconnect_notFound (b : Behavior) (cid : String) (st : Store)
    (h : st.filter (fun r => r.PK == connKey cid) = []) :
    (handleDisconnect b cid st).2 = st := by
  cases hq : b.pkQueryFails cid <;>
    simp [handleDisconnect, disconnectAttempt, hq, h]

theorem handleDisconnect_found (b : Behavior) (cid : String) (st : Store)
    (item : ConnRecord) (tl : List ConnRecord)
    (hq : b.pkQueryFails cid = false) (hd : b.deleteFails cid = false)
    (h : st.filter (fun r => r.PK == connKey cid) = item :: tl) :
    (handleDisconnect b cid st).2 =
      st.filter (fun r => !(r.PK == item.PK && r.SK == item.SK)) := by
  simp [handleDisconnect, disconnectAttempt, hq, hd, h]

theorem handleDisconnect_cases (b : Behavior) (cid : String) (st : Store) :
    (handleDisconnect b cid st).2 = st ∨
      ∃ item tl, st.filter (fun r => r.PK == connKey cid) = item :: tl ∧
        (handleDisconnect b cid st).2 =
          st.filter (fun r => !(r.PK == item.PK && r.SK == item.SK)) := by
  cases hq : b.pkQueryFails cid with
  | true => left; simp [handleDisconnect, disconnectAttempt, hq]
  | false =>
    cases h : st.filter (fun r => r.PK == connKey cid) with
    | nil => left; exact handleDisconnect_notFound _ _ _ h
    | cons item tl =>
      cases hdel : b.deleteFails cid with
      | true => left; simp [handleDisconnect, disconnectAttempt, hq, hdel, h]
      | false => exact Or.inr ⟨item, tl, rfl, handleDisconnect_found b cid st item tl hq hdel h⟩

theorem length_le_filter_key (st : Store) (item : ConnRecord) (hk : KeyNodup st)
    (hm : item ∈ st) :
    st.length ≤ (st.filter (fun r => !(r.PK == item.PK && r.SK == item.SK))).length + 1 := by
  induction st with
  | nil => simp at hm
  | cons a tl ih =>
    have hcons := hk
    unfold KeyNodup at hcons
    rw [List.map_cons, List.nodup_cons] at hcons
    cases hEq : (a.PK == item.PK && a.SK == item.SK) with
    | true =>
      have hab : a.PK = item.PK ∧ a.SK = item.SK := by
        rw [Bool.and_eq_true] at hEq
        exact ⟨eq_of_beq hEq.1, eq_of_beq hEq.2⟩
      have hall : tl.filter (fun r => !(r.PK == item.PK && r.SK == item.SK)) = tl := by
        rw [List.filter_eq_self]
        intro r hr
        rw [Bool.not_eq_true']
        by_contra hc
        rw [Bool.not_eq_false, Bool.and_eq_true] at hc
        have : (r.PK, r.SK) = (a.PK, a.SK) := by
          rw [eq_of_beq hc.1, eq_of_beq hc.2, hab.1, hab.2]
        exact hcons.1 (by
          rw [← this]
          exact List.mem_map_of_mem (fun r => (r.PK, r.SK)) hr)
      rw [List.filter_cons_of_neg (by rw [hEq]; simp), hall, List.length_cons]
    | false =>
      have hm2 : item ∈ tl := by
        cases List.mem_cons.1 hm with
        | inl h => subst h; simp at hEq
        | inr h => exact h
      have hrec := ih hcons.2 hm2
      rw [List.filter_cons_of_pos (by rw [hEq]; rfl), List.length_cons, List.length_cons]
      omega

/-- Claim C6: handleDisconnect never errors (every behaviour yields
200 Disconnected), is a no-op on an already-absent record, and — when the
connection has at most one record and the store calls succeed — a second
disconnect right after a first one leaves the table exactly as the first
left it. -/
theorem C6_unregisterIdem (b : Behavior) (cid : String) (st : Store)
    (hq : b.pkQueryFails cid = false) (hdel : b.deleteFails cid = false)
    (hone : (st.filter (fun r => r.PK == connKey cid)).length ≤ 1) :
    (∀ (b2 : Behavior) (st2 : Store),
        (handleDisconnect b2 cid st2).1 = ⟨200, "Disconnected"⟩) ∧
      (st.filter (fun r => r.PK == connKey cid) = [] →
        (handleDisconnect b cid st).2 = st) ∧
      (handleDisconnect b cid (handleDisconnect b cid st).2).2 =
        (handleDisconnect b cid st).2 := by
  refine ⟨fun b2 st2 => handleDisconnect_status b2 cid st2,
    fun h => handleDisconnect_notFound b cid st h, ?_⟩
  cases h : st.filter (fun r => r.PK == connKey cid) with
  | nil =>
    rw [handleDisconnect_notFound b cid st h]
    exact handleDisconnect_notFound b cid st h
  | cons item tl =>
    have htl : tl = [] := by
      have hlen : (item :: tl).length ≤ 1 := h ▸ hone
      simp only [List.length_cons] at hlen
      exact List.length_eq_zero.1 (by omega)
    subst htl
    rw [handleDisconnect_found b cid st item [] hq hdel h]
    apply handleDisconnect_notFound
    rw [List.filter_filter, List.filter_eq_nil_iff]
    intro a ha hc
    rw [Bool.and_eq_true, Bool.not_eq_true'] at hc
    have hmem : a ∈ st.filter (fun r => r.PK == connKey cid) :=
      List.mem_filter.2 ⟨ha, hc.1⟩
    rw [h] at hmem
    have haitem : a = item := by simpa using hmem
    subst haitem
    simp at hc

theorem C6_unregisterIdem_witness :
    (∀ (b2 : Behavior) (st2 : Store),
        (handleDisconnect b2 "c1" st2).1 = ⟨200, "Disconnected"⟩) ∧
      ([rec1].filter (fun r => r.PK == connKey "c1") = [] →
        (handleDisconnect bAllOk "c1" [rec1]).2 = [rec1]) ∧
      (handleDisconnect bAllOk "c1" (handleDisconnect bAllOk "c1" [rec1]).2).2 =
        (handleDisconnect bAllOk "c1" [rec1]).2 :=
  C6_unregisterIdem bAllOk "c1" [rec1] rfl rfl (by decide)

/-- Claim C10: handleDisconnect deletes at most one record — only the first
record found under partition key CONNECTION#connectionId — and every record
with a different partition key, as well as any record under the same key
beyond the first found, survives. -/
theorem C10_unregisterFrame (b : Behavior) (cid : String) (st : Store) (hk : KeyNodup st) :
    ((handleDisconnect b cid st).2).Sublist st ∧
      st.length ≤ ((handleDisconnect b cid st).2).length + 1 ∧
      (∀ r ∈ st, r.PK ≠ connKey cid → r ∈ (handleDisconnect b cid st).2) ∧
      (∀ r ∈ st, r ∉ (handleDisconnect b cid st).2 →
        (st.filter (fun x => x.PK == connKey cid)).head? = some r) := by
  rcases handleDisconnect_cases b cid st with heq | ⟨item, tl, hf, heq⟩
  · rw [heq]
    exact ⟨List.Sublist.refl st, Nat.le_succ _, fun r hr _ => hr,
      fun r hr habs => absurd hr habs⟩
  · have hitem : item ∈ st.filter (fun r => r.PK == connKey cid) := by
      rw [hf]; exact List.mem_cons_self item tl
    have hitemSt : item ∈ st := (List.mem_filter.1 hitem).1
    have hitemPK : item.PK = connKey cid := eq_of_beq (List.mem_filter.1 hitem).2
    rw [heq]
    refine ⟨List.filter_sublist st, length_le_filter_key st item hk hitemSt, ?_, ?_⟩
    · intro r hr hne
      refine List.mem_filter.2 ⟨hr, ?_⟩
      rw [Bool.not_eq_true']
      rw [Bool.and_eq_false_iff]
      left
      rw [beq_eq_false_iff_ne]
      intro hcontra
      exact hne (hcontra.trans hitemPK)
    · intro r hr hnot
      have hkey : (r.PK == item.PK && r.SK == item.SK) = true := by
        by_contra hc
        rw [Bool.not_eq_true] at hc
        exact hnot (List.mem_filter.2 ⟨hr, by rw [hc]; rfl⟩)
      rw [Bool.and_eq_true] at hkey
      have : r = item := keyNodup_eq hk hr hitemSt (eq_of_beq hkey.1) (eq_of_beq hkey.2)
      rw [hf, this]
      rfl

theorem C10_unregisterFrame_witness :
    ((handleDisconnect bAllOk "c1" [rec1, rec2]).2).Sublist [rec1, rec2] ∧
      ([rec1, rec2] : Store).length ≤ ((handleDisconnect bAllOk "c1" [rec1, rec2]).2).length + 1 ∧
      (∀ r ∈ ([rec1, rec2] : Store), r.PK ≠ connKey "c1" →
        r ∈ (handleDisconnect bAllOk "c1" [rec1, rec2]).2) ∧
      (∀ r ∈ ([rec1, rec2] : Store), r ∉ (handleDisconnect bAllOk "c1" [rec1, rec2]).2 →
        (([rec1, rec2] : Store).filter (fun x => x.PK == connKey "c1")).head? = some r) :=
  C10_unregisterFrame bAllOk "c1" [rec1, rec2] (by unfold KeyNodup; decide)

/-- Claim C1: register (handleConnect with a present userId) followed
immediately by findByUser (the GSI1 query of emitStepProgress) for the same
user yields a list containing the new connection id, assuming the put does
not fail. -/
theorem C1_roundTrip (b : Behavior) (cid u : String) (jobId : Option String)
    (now : Nat) (st : Store) (hu : u ≠ "") (hput : b.putFails = false) :
    ∃ res : HttpRes × Store, handleConnect b cid (some u) jobId now st = Except.ok res ∧
      res.1.statusCode = 200 ∧ cid ∈ findByUser u res.2 := by
  have hbeq : (u == "") = false := beq_eq_false_iff_ne.2 hu
  refine ⟨(⟨200, "Connected"⟩,
    dynamoPut ⟨connKey cid, userKey u, userKey u, connKey cid, cid, u,
      (if strFalsy jobId then none else jobId), now, now / 1000 + 2 * 60 * 60⟩ st), ?_, rfl, ?_⟩
  · simp [handleConnect, hbeq, hput]
  · simp [findByUser, gsiQuery, dynamoPut, List.filter_cons]

theorem C1_roundTrip_witness :
    ∃ res : HttpRes × Store,
      handleConnect bAllOk "c9" (some "u9") none 5000 [rec1] = Except.ok res ∧
        res.1.statusCode = 200 ∧ "c9" ∈ findByUser "u9" res.2 :=
  C1_roundTrip bAllOk "c9" "u9" none 5000 [rec1] (by decide) rfl

/-- Claim C7: a connect event whose userId is missing (JS-falsy: absent or
empty) is rejected with status 400 and the table is untouched; the result
does not depend on the store/behaviour oracle at all, witnessing that no
store interaction happens. -/
theorem C7_missingUserId (b b2 : Behavior) (cid : String) (userId jobId : Option String)
    (now : Nat) (st : Store) (hu : strFalsy userId = true) :
    handleConnect b cid userId jobId now st = Except.ok (⟨400, "Missing userId"⟩, st) ∧
      handleConnect b cid userId jobId now st = handleConnect b2 cid userId jobId now st := by
  cases userId with
  | none => exact ⟨rfl, rfl⟩
  | some u =>
    have : (u == "") = true := hu
    constructor <;> simp [handleConnect, this]

theorem C7_missingUserId_witness :
    handleConnect bAllOk "c9" (some "") none 5000 [rec1] =
        Except.ok (⟨400, "Missing userId"⟩, [rec1]) ∧
      handleConnect bAllOk "c9" (some "") none 5000 [rec1] =
        handleConnect bAllDrop "c9" (some "") none 5000 [rec1] :=
  C7_missingUserId bAllOk bAllDrop "c9" (some "") none 5000 [rec1] rfl

/-- Claim C8: a successful register at time `now` (epoch milliseconds)
inserts a record with `connectedAt = now` and a TTL of two hours after `now`
(`ttl = now / 1000 + 2 * 60 * 60` epoch seconds), together with the
template-string keys. -/
theorem C8_registryTTL (b : Behavior) (cid u : String) (jobId : Option String)
    (now : Nat) (st : Store) (hu : u ≠ "") (hput : b.putFails = false) :
    ∃ res : HttpRes × Store, handleConnect b cid (some u) jobId now st = Except.ok res ∧
      res.2.head? = some
        { PK := connKey cid, SK := userKey u, GSI1PK := userKey u, GSI1SK := connKey cid
          connectionId := cid, userId := u
          jobId := if strFalsy jobId then none else jobId
          connectedAt := now, ttl := now / 1000 + 2 * 60 * 60 } := by
  have hbeq : (u == "") = false := beq_eq_false_iff_ne.2 hu
  refine ⟨(⟨200, "Connected"⟩,
    dynamoPut ⟨connKey cid, userKey u, userKey u, connKey cid, cid, u,
      (if strFalsy jobId then none else jobId), now, now / 1000 + 2 * 60 * 60⟩ st), ?_, rfl⟩
  simp [handleConnect, hbeq, hput]

theorem C8_registryTTL_witness :
    ∃ res : HttpRes × Store,
      handleConnect bAllOk "c9" (some "u9") none 7005000 [] = Except.ok res ∧
        res.2.head? = some
          { PK := connKey "c9", SK := userKey "u9", GSI1PK := userKey "u9"
            GSI1SK := connKey "c9", connectionId := "c9", userId := "u9"
            jobId := if strFalsy none then none else none
            connectedAt := 7005000, ttl := 7005000 / 1000 + 2 * 60 * 60 } :=
  C8_registryTTL bAllOk "c9" "u9" none 7005000 [] (by decide) rfl

/-- Claim C9: both emitStepProgress implementations resolve normally for
every input, every store state and every failure behaviour of the store
query and the push channel — no error escapes to the caller. -/
theorem C9_broadcastTotality (b : Behavior) (uid jobId stepName status : String)
    (dn stg tbl : Option String) (st : Store) :
    (∃ r, emitStepProgress b uid jobId stepName status dn stg st = Except.ok r) ∧
      (∃ r, emitStepProgressShared b uid jobId stepName status tbl dn stg st =
        Except.ok r) := by
  constructor
  · unfold emitStepProgress
    split
    · exact ⟨_, rfl⟩
    · split
      · exact ⟨_, rfl⟩
      · exact ⟨_, rfl⟩
  · unfold emitStepProgressShared
    split
    · exact ⟨_, rfl⟩
    · split
      · exact ⟨_, rfl⟩
      · exact ⟨_, rfl⟩

theorem emitStepProgress_eq (b : Behavior) (uid jobId stepName status : String)
    (dn stg : Option String) (st : Store)
    (hdn : strFalsy dn = false) (hstg : strFalsy stg = false) :
    emitStepProgress b uid jobId stepName status dn stg st =
      match emitTry b uid st with
      | Except.ok r => Except.ok r
      | Except.error _ =>
        Except.ok ⟨st, ⟨0, 0, 0⟩, [], [],
          [⟨LogLevel.error, "Error emitting step progress"⟩]⟩ := by
  unfold emitStepProgress
  rw [if_neg (by rw [hdn, hstg]; exact Bool.false_ne_true)]

theorem emitTry_empty (b : Behavior) (uid : String) (st : Store)
    (hgsi : b.gsiQueryFails = false) (hnil : gsiQuery uid st = []) :
    emitTry b uid st =
      Except.ok ⟨st, ⟨0, 0, 0⟩, [], [],
        [⟨LogLevel.info, "No active WebSocket connections found"⟩]⟩ := by
  unfold emitTry
  rw [if_neg (by rw [hgsi]; exact Bool.false_ne_true), if_pos (by rw [hnil]; rfl)]

theorem emitTry_busy (b : Behavior) (uid : String) (st : Store)
    (hgsi : b.gsiQueryFails = false) (hne : ¬(gsiQuery uid st).isEmpty = true) :
    emitTry b uid st =
      Except.ok ⟨(sendLoop b (gsiQuery uid st) st).store,
        ⟨(gsiQuery uid st).length, (sendLoop b (gsiQuery uid st) st).deliveredIds.length,
          (sendLoop b (gsiQuery uid st) st).pruned⟩,
        (sendLoop b (gsiQuery uid st) st).attempts,
        (sendLoop b (gsiQuery uid st) st).deliveredIds,
        (sendLoop b (gsiQuery uid st) st).logs⟩ := by
  unfold emitTry
  rw [if_neg (by rw [hgsi]; exact Bool.false_ne_true), if_neg hne]

theorem sendLoop_attempts (b : Behavior) (items : List ConnRecord) (st : Store) :
    (sendLoop b items st).attempts = items.map (fun c => c.connectionId) := by
  induction items generalizing st with
  | nil => rfl
  | cons c rest ih =>
    cases hs : b.sendOk c.connectionId <;> simp [sendLoop, hs, ih]

theorem sendLoop_deliveredIds (b : Behavior) (items : List ConnRecord) (st : Store) :
    (sendLoop b items st).deliveredIds =
      (items.filter (fun c => b.sendOk c.connectionId)).map (fun c => c.connectionId) := by
  induction items generalizing st with
  | nil => rfl
  | cons c rest ih =>
    cases hs : b.sendOk c.connectionId <;>
      simp [sendLoop, hs, ih, List.filter_cons]

theorem sendLoop_pruned (b : Behavior) (items : List ConnRecord) (st : Store) :
    (sendLoop b items st).pruned =
      (items.filter (fun c => !(b.sendOk c.connectionId))).length := by
  induction items generalizing st with
  | nil => rfl
  | cons c rest ih =>
    cases hs : b.sendOk c.connectionId <;>
      simp [sendLoop, hs, ih, List.filter_cons]

theorem handleDisconnect_pkFilter (b : Behavior) (cid : String) (st : Store)
    (hq : b.pkQueryFails cid = false) (hdel : b.deleteFails cid = false)
    (hpk : PKUnique st) :
    (handleDisconnect b cid st).2 = st.filter (fun r => !(r.PK == connKey cid)) := by
  cases h : st.filter (fun r => r.PK == connKey cid) with
  | nil =>
    rw [handleDisconnect_notFound b cid st h]
    symm
    rw [List.filter_eq_self]
    intro r hr
    have := List.filter_eq_nil_iff.1 h r hr
    rw [Bool.not_eq_true] at this
    rw [this]
    rfl
  | cons item tl =>
    have hitemf : item ∈ st.filter (fun x => x.PK == connKey cid) := by
      rw [h]; exact List.mem_cons_self item tl
    have hitemSt : item ∈ st := (List.mem_filter.1 hitemf).1
    have hitemPK : item.PK = connKey cid := eq_of_beq (List.mem_filter.1 hitemf).2
    rw [handleDisconnect_found b cid st item tl hq hdel h]
    apply List.filter_congr
    intro r hr
    cases hc : (r.PK == connKey cid) with
    | false =>
      have hne : (r.PK == item.PK) = false := by
        rw [beq_eq_false_iff_ne] at hc ⊢
        rw [hitemPK]; exact hc
      rw [hne]
      rfl
    | true =>
      have hri : r = item := hpk r hr item hitemSt (by rw [eq_of_beq hc, hitemPK])
      subst hri
      simp

theorem sendLoop_store (b : Behavior) (items : List ConnRecord) (st : Store)
    (hq : ∀ c, b.pkQueryFails c = false) (hdel : ∀ c, b.deleteFails c = false)
    (hpk : PKUnique st) :
    (sendLoop b items st).store =
      st.filter (fun r =>
        !(items.any (fun c => !(b.sendOk c.connectionId) && (r.PK == connKey c.connectionId)))) := by
  induction items generalizing st with
  | nil => simp [sendLoop]
  | cons c rest ih =>
    cases hs : b.sendOk c.connectionId with
    | true =>
      have hstep : (sendLoop b (c :: rest) st).store = (sendLoop b rest st).store := by
        simp [sendLoop, hs]
      rw [hstep, ih st hpk]
      apply List.filter_congr
      intro r hr
      simp [List.any_cons, hs]
    | false =>
      have hstep : (sendLoop b (c :: rest) st).store =
          (sendLoop b rest (handleDisconnect b c.connectionId st).2).store := by
        simp [sendLoop, hs]
      rw [hstep, handleDisconnect_pkFilter b c.connectionId st (hq _) (hdel _) hpk,
        ih _ (pkUnique_filter _ hpk), List.filter_filter]
      apply List.filter_congr
      intro r hr
      simp [List.any_cons, hs, Bool.not_or, Bool.and_comm]

theorem findByUser_after_prune (b : Behavior) (uid : String) (st : Store)
    (hwf : WFStore st) (hu : UniqueConn st) :
    findByUser uid (st.filter (fun r =>
        !((gsiQuery uid st).any (fun c =>
          !(b.sendOk c.connectionId) && (r.PK == connKey c.connectionId))))) =
      (findByUser uid st).filter b.sendOk := by
  unfold findByUser gsiQuery
  rw [List.filter_filter, List.filter_map, List.filter_filter]
  congr 1
  apply List.filter_congr
  intro r hr
  cases hg : (r.GSI1PK == userKey uid) with
  | false => simp [hg]
  | true =>
    simp only [hg, Bool.and_true, Bool.true_and, Function.comp]
    have hrq : r ∈ st.filter (fun x => x.GSI1PK == userKey uid) :=
      List.mem_filter.2 ⟨hr, hg⟩
    cases hsend : b.sendOk r.connectionId with
    | false =>
      have hany : (List.filter (fun r => r.GSI1PK == userKey uid) st).any
          (fun c => !(b.sendOk c.connectionId) && (r.PK == connKey c.connectionId)) = true := by
        rw [List.any_eq_true]
        refine ⟨r, hrq, ?_⟩
        rw [hsend, (hwf r hr).1]
        simp
      rw [hany]
      rfl
    | true =>
      have hany : (List.filter (fun r => r.GSI1PK == userKey uid) st).any
          (fun c => !(b.sendOk c.connectionId) && (r.PK == connKey c.connectionId)) = false := by
        rw [← Bool.not_eq_true, List.any_eq_true]
        intro ⟨c, hc, hcc⟩
        rw [Bool.and_eq_true] at hcc
        have hcid : c.connectionId = r.connectionId :=
          connKey_inj (by rw [← (hwf r hr).1]; exact (eq_of_beq hcc.2).symm)
        have hcr : c = r :=
          List.inj_on_of_nodup_map hu (List.mem_filter.1 hc).1 hr hcid
        rw [hcr, hsend] at hcc
        simp at hcc
      rw [hany]
      rfl

/-- Claim C4: in a single broadcast, every connection found by the GSI1 query
gets a send attempt, in query order, whatever the outcomes of the other
sends are, and a connection is delivered to exactly when its own channel
succeeds — one connection's failure never blocks or fails another's
delivery. -/
theorem C4_isolation (b : Behavior) (uid jobId stepName status : String)
    (dn stg : Option String) (st : Store)
    (hdn : strFalsy dn = false) (hstg : strFalsy stg = false)
    (hgsi : b.gsiQueryFails = false) :
    ∃ r, emitStepProgress b uid jobId stepName status dn stg st = Except.ok r ∧
      r.attempts = (gsiQuery uid st).map (fun c => c.connectionId) ∧
      r.deliveredIds =
        ((gsiQuery uid st).filter (fun c => b.sendOk c.connectionId)).map
          (fun c => c.connectionId) := by
  rw [emitStepProgress_eq b uid jobId stepName status dn stg st hdn hstg]
  cases hnil : gsiQuery uid st with
  | nil =>
    rw [emitTry_empty b uid st hgsi hnil]
    exact ⟨_, rfl, rfl, rfl⟩
  | cons c rest =>
    rw [emitTry_busy b uid st hgsi (by rw [hnil]; simp)]
    refine ⟨_, rfl, ?_, ?_⟩
    · rw [sendLoop_attempts, hnil]
    · rw [sendLoop_deliveredIds, hnil]

theorem C4_isolation_witness :
    ∃ r, emitStepProgress bMixed "u1" "j" "s" "running" (some "d") (some "g")
        [rec1, rec2] = Except.ok r ∧
      r.attempts = (gsiQuery "u1" [rec1, rec2]).map (fun c => c.connectionId) ∧
      r.deliveredIds =
        ((gsiQuery "u1" [rec1, rec2]).filter (fun c => bMixed.sendOk c.connectionId)).map
          (fun c => c.connectionId) :=
  C4_isolation bMixed "u1" "j" "s" "running" (some "d") (some "g") [rec1, rec2] rfl rfl rfl

/-- Claim C3: a broadcast for a user with no registered connections returns
normally with an all-zero delivery report, an unchanged table, no send
attempts, and no error-level log line (the source logs this outcome with
console.log, not console.error). -/
theorem C3_emptyBroadcast (b : Behavior) (uid jobId stepName status : String)
    (dn stg : Option String) (st : Store)
    (hdn : strFalsy dn = false) (hstg : strFalsy stg = false)
    (hgsi : b.gsiQueryFails = false)
    (hnone : gsiQuery uid st = []) :
    ∃ r, emitStepProgress b uid jobId stepName status dn stg st = Except.ok r ∧
      r.report = ⟨0, 0, 0⟩ ∧ r.store = st ∧ r.attempts = [] ∧
      ∀ e ∈ r.logs, e.level ≠ LogLevel.error := by
  rw [emitStepProgress_eq b uid jobId stepName status dn stg st hdn hstg,
    emitTry_empty b uid st hgsi hnone]
  refine ⟨_, rfl, rfl, rfl, rfl, ?_⟩
  intro e he
  rw [List.mem_singleton] at he
  subst he
  decide

theorem C3_emptyBroadcast_witness :
    ∃ r, emitStepProgress bAllOk "u2" "j" "s" "running" (some "d") (some "g")
        [rec1] = Except.ok r ∧
      r.report = ⟨0, 0, 0⟩ ∧ r.store = [rec1] ∧ r.attempts = [] ∧
      ∀ e ∈ r.logs, e.level ≠ LogLevel.error :=
  C3_emptyBroadcast bAllOk "u2" "j" "s" "running" (some "d") (some "g") [rec1]
    rfl rfl rfl (by decide)

theorem C2_sharedNoPrune :
    bAllDrop.sendOk "c1" = false ∧
      (emitStepProgressShared bAllDrop "u1" "j1" "s1" "running"
          (some "tbl") (some "dom") (some "stg") [rec1]).map
          (fun r => (r.store, r.report, findByUser "u1" r.store)) =
        Except.ok ([rec1], ⟨1, 0, 0⟩, ["c1"]) :=
  ⟨rfl, rfl⟩

/-- Claim C2 (amended): in the websocket-handler's emitStepProgress a failed
delivery does trigger unregistration of that connection — for a well-formed
table with unique connection ids and no store failures, findByUser afterwards
returns exactly the connections whose delivery succeeded, and the pruned
count equals the number of failed deliveries. (The shared utils.ts
emitStepProgress keeps failed connections registered, see the
counterexample.) -/
theorem C2_selfHealing (b : Behavior) (uid jobId stepName status : String)
    (dn stg : Option String) (st : Store)
    (hdn : strFalsy dn = false) (hstg : strFalsy stg = false)
    (hgsi : b.gsiQueryFails = false)
    (hq : ∀ c, b.pkQueryFails c = false) (hdel : ∀ c, b.deleteFails c = false)
    (hwf : WFStore st) (hu : UniqueConn st) :
    ∃ r, emitStepProgress b uid jobId stepName status dn stg st = Except.ok r ∧
      findByUser uid r.store = (findByUser uid st).filter b.sendOk ∧
      r.report.pruned =
        ((gsiQuery uid st).filter (fun c => !(b.sendOk c.connectionId))).length := by
  have hpk : PKUnique st := pkUnique_of_wf_unique hwf hu
  rw [emitStepProgress_eq b uid jobId stepName status dn stg st hdn hstg]
  cases hnil : gsiQuery uid st with
  | nil =>
    rw [emitTry_empty b uid st hgsi hnil]
    refine ⟨_, rfl, ?_, rfl⟩
    have hfb : findByUser uid st = [] := by
      unfold findByUser
      rw [hnil]
      rfl
    rw [hfb]
    rfl
  | cons c rest =>
    rw [emitTry_busy b uid st hgsi (by rw [hnil]; simp)]
    refine ⟨_, rfl, ?_, ?_⟩
    · rw [sendLoop_store b (gsiQuery uid st) st hq hdel hpk]
      exact findByUser_after_prune b uid st hwf hu
    · rw [sendLoop_pruned, hnil]

theorem C2_selfHealing_witness :
    ∃ r, emitStepProgress bAllDrop "u1" "j" "s" "running" (some "d") (some "g")
        [rec1] = Except.ok r ∧
      findByUser "u1" r.store = (findByUser "u1" [rec1]).filter bAllDrop.sendOk ∧
      r.report.pruned =
        ((gsiQuery "u1" [rec1]).filter (fun c => !(bAllDrop.sendOk c.connectionId))).length :=
  C2_selfHealing bAllDrop "u1" "j" "s" "running" (some "d") (some "g") [rec1]
    rfl rfl rfl (fun _ => rfl) (fun _ => rfl)
    (by unfold WFStore WFRecord; decide) (by unfold UniqueConn; decide)

theorem C5_expiredIncluded :
    expiredAt 2000 rec1 = true ∧ "c1" ∈ findByUser "u1" [rec1] :=
  ⟨rfl, by decide⟩

/-- Claim C5 (amended): findByUser returns the connection ids of exactly the
records stored under USER#userId, with no regard to expiry: any stored record
of the user — an expired-but-unpurged one included — contributes its
connection id, and an id is excluded once no stored record carries it. -/
theorem C5_findByUserMembership (uid : String) (st : Store) :
    (∀ r ∈ st, r.GSI1PK = userKey uid → r.connectionId ∈ findByUser uid st) ∧
      (∀ cid : String, (∀ r ∈ st, r.connectionId ≠ cid) → cid ∉ findByUser uid st) := by
  constructor
  · intro r hr hg
    unfold findByUser gsiQuery
    exact List.mem_map_of_mem _ (List.mem_filter.2 ⟨hr, by rw [hg]; simp⟩)
  · intro cid hnone hmem
    unfold findByUser gsiQuery at hmem
    rw [List.mem_map] at hmem
    obtain ⟨r, hrf, hrc⟩ := hmem
    exact hnone r (List.mem_filter.1 hrf).1 hrc

theorem C5_findByUserMembership_witness :
    rec1.connectionId ∈ findByUser "u1" [rec1] ∧ "zz" ∉ findByUser "u1" [rec1] :=
  ⟨(C5_findByUserMembership "u1" [rec1]).1 rec1 (by decide) (by decide),
    (C5_findByUserMembership "u1" [rec1]).2 "zz" (by decide)⟩
